import Mathlib

/-!
Verification of the surface-profile-synthesis core of the tribology toolkit:
the functions `profball` (2D ball cross-section profile) and `profrevolve`
(solid-of-revolution 3D profile) from `tribology/tribology.py`.

The embedding is shallow: Python floats become real numbers, numpy vectors
become `List ℝ`, the 2D numpy grid becomes `List (List ℝ)` (row `i_x`,
column `i_y`), and fallible operations (`math.sqrt` on a negative argument,
`numpy.ndarray.min` on a zero-size array, out-of-range numpy indexing)
return `Option`, with `none` modelling a raised Python exception.
-/

namespace Tribology

noncomputable section

/-- `numpy.sign` on reals: `-1` for negatives, `1` for positives, `0` at `0`. -/
def npsign (x : ℝ) : ℝ := if x < 0 then -1 else if 0 < x then 1 else 0

/-- `profball(x_axis, r_ball)`: the source computes
`(abs(r_ball) - np.sqrt(r_ball ** 2 - np.power(x_axis, 2))) * np.sign(r_ball)`
elementwise over `x_axis`.  (`np.sqrt` of a negative yields NaN rather than
raising; here it is `Real.sqrt`, and the claims all assume `x² ≤ r²`.) -/
def profball (xs : List ℝ) (r : ℝ) : List ℝ :=
  xs.map (fun x => (|r| - Real.sqrt (r ^ 2 - x ^ 2)) * npsign r)

/-- The pre-clamp bracket of `profrevolve`, exactly as the source computes it:
`pow((y_diam / 2 - sign_diam * prof_2d[i_x]), 2) - pow(y_axis[i_y], 2)`. -/
def bracket (d p y : ℝ) : ℝ := (d / 2 - npsign d * p) ^ 2 - y ^ 2

/-- `math.sqrt`, which raises `ValueError` on a negative argument. -/
def msqrt (x : ℝ) : Option ℝ := if x < 0 then none else some (Real.sqrt x)

/-- One cell of the raw grid of `profrevolve`, with `math.sqrt` fallible:
clamp to `|d|/2` when `bracket ≤ 0`, else `|d|/2 - sign(d) * sqrt(bracket)`. -/
def rawCell? (d p y : ℝ) : Option ℝ :=
  if bracket d p y ≤ 0 then some (|d| / 2)
  else (msqrt (bracket d p y)).map (fun s => |d| / 2 - npsign d * s)

/-- One cell of the raw grid, total form (the guard makes `sqrt` safe). -/
def rawCell (d p y : ℝ) : ℝ :=
  if bracket d p y ≤ 0 then |d| / 2
  else |d| / 2 - npsign d * Real.sqrt (bracket d p y)

/-- Sequence a fallible map over a list (fails if any element fails). -/
def mapO (f : α → Option β) : List α → Option (List β)
  | [] => some []
  | x :: xs =>
    match f x, mapO f xs with
    | some y, some ys => some (y :: ys)
    | _, _ => none

/-- The raw grid fill of `profrevolve` (the double loop), fallible form. -/
def rawGrid? (prof ys : List ℝ) (d : ℝ) : Option (List (List ℝ)) :=
  mapO (fun p => mapO (fun y => rawCell? d p y) ys) prof

/-- The raw grid fill of `profrevolve`, total form. -/
def rawGrid (prof ys : List ℝ) (d : ℝ) : List (List ℝ) :=
  prof.map (fun p => ys.map (fun y => rawCell d p y))

/-- Python 3 `round(n / 2)` for a natural `n`: round-half-to-even. -/
def pyHalfRound (n : ℕ) : ℕ :=
  if n % 2 = 0 then n / 2
  else if (n / 2) % 2 = 0 then n / 2 else n / 2 + 1

/-- numpy integer indexing into an axis of length `len`: a nonnegative index
must be `< len`, a negative index `i` wraps to `len + i` when `-len ≤ i`;
anything else raises `IndexError` (modelled as `none`). -/
def npIdx (len : ℕ) (i : ℤ) : Option ℕ :=
  if 0 ≤ i ∧ i < (len : ℤ) then some i.toNat
  else if -(len : ℤ) ≤ i ∧ i < 0 then some ((len : ℤ) + i).toNat
  else none

/-- Minimum of a list of reals; `none` on the empty list, modelling the
`ValueError` that `numpy.ndarray.min` raises on a zero-size array. -/
def listMin : List ℝ → Option ℝ
  | [] => none
  | x :: xs =>
    match listMin xs with
    | none => some x
    | some m => some (min x m)

/-- The reference point (`min_prof`) selection of `profrevolve` over a
computed raw grid of shape `(len_x, len_y)`:
`prof_3d.min()` when `y_diam > 0`, otherwise
`prof_3d[round(len_x / 2) - 1, round(len_x / 2) - 1]`. -/
def refOf (raw : List (List ℝ)) (len_x len_y : ℕ) (d : ℝ) : Option ℝ :=
  if 0 < d then listMin raw.flatten
  else
    (npIdx len_x ((pyHalfRound len_x : ℤ) - 1)).bind (fun i =>
      (npIdx len_y ((pyHalfRound len_x : ℤ) - 1)).map (fun j =>
        (raw.getD i []).getD j 0))

/-- The reference point of `profrevolve` as a function of the inputs. -/
def refPoint (prof ys : List ℝ) (d : ℝ) : Option ℝ :=
  refOf (rawGrid prof ys d) prof.length ys.length d

/-- `profrevolve(prof_2d, y_axis, y_diam)`: fill the raw grid, pick the
reference point, set `prof_3d = -(prof_3d - min_prof)`, slice
`y_profile = prof_3d[:, floor(len_y / 2)]`, and return
`(-prof_3d, y_profile)`.  `none` models a raised Python exception. -/
def profrevolve (prof ys : List ℝ) (d : ℝ) :
    Option (List (List ℝ) × List ℝ) :=
  (rawGrid? prof ys d).bind (fun raw =>
    (refOf raw prof.length ys.length d).bind (fun m =>
      if ys.length / 2 < ys.length then
        let final := raw.map (fun row => row.map (fun v => -(v - m)))
        some (final.map (fun row => row.map (fun v => -v)),
              final.map (fun row => row.getD (ys.length / 2) 0))
      else none))

/-- Modelled from the spec: the bracket formula as §4.2 step 2 states it,
`(|y_diam|/2 − sign_d · profile_2d[ix])² − y_axis[iy]²`, for comparison with
the `bracket` actually computed by the source. -/
def bracketSpec (d p y : ℝ) : ℝ := (|d| / 2 - npsign d * p) ^ 2 - y ^ 2

end

/-! ## Basic lemmas about the embedding -/

theorem npsign_of_pos {d : ℝ} (h : 0 < d) : npsign d = 1 := by
  unfold npsign
  rw [if_neg (by linarith), if_pos h]

theorem npsign_of_neg {d : ℝ} (h : d < 0) : npsign d = -1 := by
  unfold npsign
  rw [if_pos h]

theorem npsign_zero : npsign 0 = 0 := by
  unfold npsign
  norm_num

/-- For nonzero `d` the sign cancels inside the square: the bracket computed
by the source equals `(|d|/2 − p)² − y²`. -/
theorem bracket_eq_of_ne {d : ℝ} (h : d ≠ 0) (p y : ℝ) :
    bracket d p y = (|d| / 2 - p) ^ 2 - y ^ 2 := by
  rcases h.lt_or_lt with hneg | hpos
  · rw [bracket, npsign_of_neg hneg, abs_of_neg hneg]; ring
  · rw [bracket, npsign_of_pos hpos, abs_of_pos hpos]; ring

theorem bracket_of_zero (p y : ℝ) : bracket 0 p y = -y ^ 2 := by
  rw [bracket, npsign_zero]; ring

/-- The guarded cell computation never fails: `math.sqrt` is only reached
with a positive argument, so no exception (and no NaN) per cell. -/
theorem rawCell?_eq_some (d p y : ℝ) :
    rawCell? d p y = some (rawCell d p y) := by
  unfold rawCell? rawCell msqrt
  by_cases h : bracket d p y ≤ 0
  · rw [if_pos h, if_pos h]
  · rw [if_neg h, if_neg h, if_neg (by push_neg at h; linarith)]
    rfl

theorem mapO_eq_some {α β : Type} (f : α → Option β) (g : α → β)
    (hf : ∀ a, f a = some (g a)) (l : List α) :
    mapO f l = some (l.map g) := by
  induction l with
  | nil => rfl
  | cons x xs ih => simp [mapO, hf x, ih]

/-- The whole grid fill never raises. -/
theorem rawGrid?_eq_some (prof ys : List ℝ) (d : ℝ) :
    rawGrid? prof ys d = some (rawGrid prof ys d) := by
  unfold rawGrid? rawGrid
  exact mapO_eq_some _ _
    (fun p => mapO_eq_some _ _ (fun y => rawCell?_eq_some d p y) ys) prof

theorem rawGrid_length (prof ys : List ℝ) (d : ℝ) :
    (rawGrid prof ys d).length = prof.length := by
  simp [rawGrid]

theorem rawGrid_row_length {prof ys : List ℝ} {d : ℝ} {row : List ℝ}
    (h : row ∈ rawGrid prof ys d) : row.length = ys.length := by
  simp only [rawGrid, List.mem_map] at h
  obtain ⟨p, _, rfl⟩ := h
  simp

theorem rawGrid_getD {prof ys : List ℝ} {d : ℝ} {ix iy : ℕ}
    (hx : ix < prof.length) (hy : iy < ys.length) :
    ((rawGrid prof ys d).getD ix []).getD iy 0 =
      rawCell d (prof.getD ix 0) (ys.getD iy 0) := by
  have h1 : (rawGrid prof ys d).getD ix [] =
      ys.map (fun y => rawCell d (prof.getD ix 0) y) := by
    unfold rawGrid
    rw [List.getD_eq_getElem _ _ (by simpa using hx), List.getElem_map,
      List.getD_eq_getElem _ _ hx]
  rw [h1, List.getD_eq_getElem _ _ (by simpa using hy), List.getElem_map,
    List.getD_eq_getElem _ _ hy]

theorem mem_flatten_rawGrid {prof ys : List ℝ} {d : ℝ} {v : ℝ} :
    v ∈ (rawGrid prof ys d).flatten ↔
      ∃ p ∈ prof, ∃ y ∈ ys, v = rawCell d p y := by
  simp only [rawGrid, List.mem_flatten, List.mem_map]
  constructor
  · rintro ⟨row, ⟨p, hp, rfl⟩, hv⟩
    obtain ⟨y, hy, rfl⟩ := List.mem_map.mp hv
    exact ⟨p, hp, y, hy, rfl⟩
  · rintro ⟨p, hp, y, hy, rfl⟩
    exact ⟨ys.map (fun y => rawCell d p y), ⟨p, hp, rfl⟩,
      List.mem_map.mpr ⟨y, hy, rfl⟩⟩

theorem flatten_rawGrid_ne_nil {prof ys : List ℝ} {d : ℝ}
    (hp : prof ≠ []) (hy : ys ≠ []) :
    (rawGrid prof ys d).flatten ≠ [] := by
  cases prof with
  | nil => exact absurd rfl hp
  | cons p ps =>
    simp only [rawGrid, List.map_cons, List.flatten_cons, ne_eq,
      List.append_eq_nil, not_and]
    intro h
    exact absurd (List.map_eq_nil_iff.mp h) hy

theorem listMin_eq_none {l : List ℝ} (h : listMin l = none) : l = [] := by
  cases l with
  | nil => rfl
  | cons x xs =>
    rw [listMin] at h
    cases hx : listMin xs <;> rw [hx] at h <;> simp at h

theorem listMin_isSome_of_ne_nil {l : List ℝ} (h : l ≠ []) :
    ∃ m, listMin l = some m := by
  cases hl : listMin l with
  | none => exact absurd (listMin_eq_none hl) h
  | some m => exact ⟨m, rfl⟩

theorem listMin_mem {l : List ℝ} {m : ℝ} (h : listMin l = some m) :
    m ∈ l := by
  induction l generalizing m with
  | nil => simp [listMin] at h
  | cons x xs ih =>
    rw [listMin] at h
    cases hx : listMin xs with
    | none =>
      rw [hx] at h
      simp only [Option.some.injEq] at h
      simp [← h]
    | some m' =>
      rw [hx] at h
      simp only [Option.some.injEq] at h
      subst h
      rcases min_choice x m' with hc | hc
      · rw [hc]; exact List.mem_cons_self x xs
      · rw [hc]; exact List.mem_cons_of_mem x (ih hx)

theorem listMin_le {l : List ℝ} {m : ℝ} (h : listMin l = some m) :
    ∀ z ∈ l, m ≤ z := by
  induction l generalizing m with
  | nil => simp [listMin] at h
  | cons x xs ih =>
    intro z hz
    rw [listMin] at h
    cases hx : listMin xs with
    | none =>
      rw [hx] at h
      simp only [Option.some.injEq] at h
      have hxs := listMin_eq_none hx
      subst hxs
      have hzx := List.mem_singleton.mp hz
      rw [hzx]
      exact le_of_eq h.symm
    | some m' =>
      rw [hx] at h
      simp only [Option.some.injEq] at h
      subst h
      rcases List.mem_cons.mp hz with hzx | hzin
      · rw [hzx]; exact min_le_left x m'
      · exact le_trans (min_le_right x m') (ih hx z hzin)

theorem npIdx_zero (i : ℤ) : npIdx 0 i = none := by
  unfold npIdx
  rw [if_neg (by omega), if_neg (by omega)]

theorem npIdx_of_lt {len k : ℕ} (h : k < len) : npIdx len (k : ℤ) = some k := by
  unfold npIdx
  rw [if_pos ⟨by omega, by omega⟩]
  simp

theorem npIdx_of_ge {len : ℕ} {i : ℤ} (h : (len : ℤ) ≤ i) :
    npIdx len i = none := by
  unfold npIdx
  rw [if_neg (by omega), if_neg (by omega)]

/-! ## Shape of `profrevolve` runs -/

/-- When `y_diam > 0` and both inputs are non-empty, the reference point is
the attained global minimum of the raw grid. -/
theorem refPoint_pos {prof ys : List ℝ} {d : ℝ} (hd : 0 < d)
    (hp : prof ≠ []) (hy : ys ≠ []) :
    ∃ m, refPoint prof ys d = some m ∧ m ∈ (rawGrid prof ys d).flatten ∧
      ∀ v ∈ (rawGrid prof ys d).flatten, m ≤ v := by
  obtain ⟨m, hm⟩ := listMin_isSome_of_ne_nil (flatten_rawGrid_ne_nil hp hy)
  refine ⟨m, ?_, listMin_mem hm, listMin_le hm⟩
  unfold refPoint refOf
  rw [if_pos hd]
  exact hm

/-- When `y_diam ≤ 0` and the rounded index is in range on both axes, the
reference point is the raw grid cell at
`(round(len_x/2) − 1, round(len_x/2) − 1)`. -/
theorem refPoint_nonpos {prof ys : List ℝ} {d : ℝ} (hd : d ≤ 0) {k : ℕ}
    (hk : k = pyHalfRound prof.length) (h1 : 1 ≤ k)
    (hx : k - 1 < prof.length) (hy : k - 1 < ys.length) :
    refPoint prof ys d =
      some (((rawGrid prof ys d).getD (k - 1) []).getD (k - 1) 0) := by
  unfold refPoint refOf
  rw [if_neg (by linarith)]
  have hcast : (pyHalfRound prof.length : ℤ) - 1 = ((k - 1 : ℕ) : ℤ) := by
    subst hk; omega
  rw [hcast, npIdx_of_lt hx, npIdx_of_lt hy, Option.some_bind,
    Option.map_some']

theorem refPoint_nil_left (ys : List ℝ) (d : ℝ) : refPoint [] ys d = none := by
  unfold refPoint refOf
  by_cases hd : 0 < d
  · rw [if_pos hd]; rfl
  · rw [if_neg hd]
    rw [show ([] : List ℝ).length = 0 from rfl, npIdx_zero, Option.none_bind]

theorem refPoint_nil_right (prof : List ℝ) (d : ℝ) :
    refPoint prof [] d = none := by
  unfold refPoint refOf
  by_cases hd : 0 < d
  · rw [if_pos hd]
    have hfl : (rawGrid prof [] d).flatten = [] := by
      simp [rawGrid, List.flatten_eq_nil_iff]
    rw [hfl]; rfl
  · rw [if_neg hd]
    rw [show ([] : List ℝ).length = 0 from rfl, npIdx_zero]
    cases h1 : npIdx prof.length ((pyHalfRound prof.length : ℤ) - 1) <;> simp

theorem profrevolve_eq_none_of_ref {prof ys : List ℝ} {d : ℝ}
    (h : refPoint prof ys d = none) : profrevolve prof ys d = none := by
  unfold profrevolve
  rw [rawGrid?_eq_some, Option.some_bind]
  have h' : refOf (rawGrid prof ys d) prof.length ys.length d = none := h
  rw [h', Option.none_bind]

/-- Closed form of a successful `profrevolve` run: the primary grid is the
raw grid shifted down by the reference, the secondary output is the negated
shifted center column. -/
theorem profrevolve_eq_of_ref {prof ys : List ℝ} {d m : ℝ}
    (hm : refPoint prof ys d = some m) (hk : ys.length / 2 < ys.length) :
    profrevolve prof ys d =
      some ((rawGrid prof ys d).map (fun row => row.map (fun v => v - m)),
            (rawGrid prof ys d).map (fun row =>
              -(row.getD (ys.length / 2) 0 - m))) := by
  have hm' : refOf (rawGrid prof ys d) prof.length ys.length d = some m := hm
  unfold profrevolve
  rw [rawGrid?_eq_some, Option.some_bind, hm', Option.some_bind, if_pos hk]
  simp only [List.map_map]
  congr 1
  congr 1
  · apply List.map_congr_left
    intro row _
    simp only [Function.comp_apply, List.map_map]
    apply List.map_congr_left
    intro v _
    simp only [Function.comp_apply]
    ring
  · apply List.map_congr_left
    intro row hrow
    simp only [Function.comp_apply]
    have hlen : ys.length / 2 < row.length := by
      rw [rawGrid_row_length hrow]; exact hk
    rw [List.getD_eq_getElem _ _ (by simpa using hlen), List.getElem_map,
      List.getD_eq_getElem _ _ hlen]

/-- Inversion: any successful `profrevolve` run has this shape. -/
theorem profrevolve_some_inv {prof ys : List ℝ} {d : ℝ}
    {g : List (List ℝ)} {s : List ℝ}
    (h : profrevolve prof ys d = some (g, s)) :
    ∃ m, refPoint prof ys d = some m ∧ ys.length / 2 < ys.length ∧
      g = (rawGrid prof ys d).map (fun row => row.map (fun v => v - m)) ∧
      s = (rawGrid prof ys d).map (fun row =>
            -(row.getD (ys.length / 2) 0 - m)) := by
  cases hm : refOf (rawGrid prof ys d) prof.length ys.length d with
  | none =>
    have hnone : profrevolve prof ys d = none := profrevolve_eq_none_of_ref hm
    rw [hnone] at h
    exact absurd h (by simp)
  | some m =>
    by_cases hk : ys.length / 2 < ys.length
    · have hm2 : refPoint prof ys d = some m := hm
      have h2 := profrevolve_eq_of_ref hm2 hk
      rw [h2] at h
      injection h with h3
      exact ⟨m, hm2, hk, (congrArg Prod.fst h3).symm,
        (congrArg Prod.snd h3).symm⟩
    · have hnone : profrevolve prof ys d = none := by
        unfold profrevolve
        rw [rawGrid?_eq_some, Option.some_bind, hm, Option.some_bind,
          if_neg hk]
      rw [hnone] at h
      exact absurd h (by simp)

theorem profball_getD {xs : List ℝ} {r : ℝ} {i : ℕ} (hi : i < xs.length) :
    (profball xs r).getD i 0 =
      (|r| - Real.sqrt (r ^ 2 - (xs.getD i 0) ^ 2)) * npsign r := by
  unfold profball
  rw [List.getD_eq_getElem _ _ (by simpa using hi), List.getElem_map,
    List.getD_eq_getElem _ _ hi]

/-! ## Claims -/

/-- C1, counterexample: at `profile_2d = [1]`, `y_axis = [0]`, `y_diam = -2`
and indices `(0, 0)`, the pre-clamp bracket computed by the algorithm (which
uses `y_diam / 2`, signed) differs from the value
`(|y_diam|/2 − sign(y_diam)·profile_2d[0])² − y_axis[0]²` asserted by the
claim (the algorithm gets `0`, the claim asserts `4`). -/
theorem C1_bracket_counterexample :
    bracket (-2) (([1] : List ℝ).getD 0 0) (([0] : List ℝ).getD 0 0) ≠
      bracketSpec (-2) (([1] : List ℝ).getD 0 0) (([0] : List ℝ).getD 0 0) := by
  norm_num [bracket, bracketSpec, npsign]

/-- C1 (amended): for every real `y_diam`, profile entry `p` and axis entry
`y`, the pre-clamp bracket computed by the algorithm equals
`(|y_diam|/2 − p)² − y²` when `y_diam ≠ 0` (the orientation sign cancels
inside the square), and `−y²` when `y_diam = 0`. -/
theorem C1_bracket_amended (d p y : ℝ) :
    (d ≠ 0 → bracket d p y = (|d| / 2 - p) ^ 2 - y ^ 2) ∧
    (d = 0 → bracket d p y = -y ^ 2) := by
  constructor
  · intro h
    exact bracket_eq_of_ne h p y
  · intro h
    subst h
    exact bracket_of_zero p y

/-- C1, witness: the amended bracket identity evaluated at
`y_diam = -2`, `p = 1`, `y = 0`. -/
theorem C1_bracket_amended_witness :
    (-2 : ℝ) ≠ 0 ∧
      bracket (-2) 1 0 = (|(-2 : ℝ)| / 2 - 1) ^ 2 - (0 : ℝ) ^ 2 :=
  ⟨by norm_num, (C1_bracket_amended (-2) 1 0).1 (by norm_num)⟩

/-- C2: for every cell `(ix, iy)` of the raw grid, the fill never raises,
and the cell equals `|y_diam|/2` when the bracket (as computed by the code)
is `≤ 0`, and `|y_diam|/2 − sign(y_diam)·sqrt(bracket)` when it is `> 0`. -/
theorem C2_rawGrid_cell (prof ys : List ℝ) (d : ℝ) (ix iy : ℕ)
    (hx : ix < prof.length) (hy : iy < ys.length) :
    ∃ g, rawGrid? prof ys d = some g ∧
      ((bracket d (prof.getD ix 0) (ys.getD iy 0) ≤ 0 →
          (g.getD ix []).getD iy 0 = |d| / 2) ∧
       (0 < bracket d (prof.getD ix 0) (ys.getD iy 0) →
          (g.getD ix []).getD iy 0 =
            |d| / 2 -
              npsign d * Real.sqrt (bracket d (prof.getD ix 0) (ys.getD iy 0)))) := by
  refine ⟨rawGrid prof ys d, rawGrid?_eq_some prof ys d, ?_, ?_⟩
  · intro hb
    rw [rawGrid_getD hx hy, rawCell, if_pos hb]
  · intro hb
    rw [rawGrid_getD hx hy, rawCell, if_neg (by linarith)]

/-- C2, witness: the cell characterization at `profile_2d = [0]`,
`y_axis = [0]`, `y_diam = 1`, indices `(0, 0)`. -/
theorem C2_rawGrid_cell_witness :
    ∃ g, rawGrid? [(0 : ℝ)] [(0 : ℝ)] 1 = some g ∧
      ((bracket 1 (([0] : List ℝ).getD 0 0) (([0] : List ℝ).getD 0 0) ≤ 0 →
          (g.getD 0 []).getD 0 0 = |(1 : ℝ)| / 2) ∧
       (0 < bracket 1 (([0] : List ℝ).getD 0 0) (([0] : List ℝ).getD 0 0) →
          (g.getD 0 []).getD 0 0 =
            |(1 : ℝ)| / 2 -
              npsign 1 *
                Real.sqrt
                  (bracket 1 (([0] : List ℝ).getD 0 0)
                    (([0] : List ℝ).getD 0 0)))) :=
  C2_rawGrid_cell [0] [0] 1 0 0 (by norm_num) (by norm_num)

/-- C3, counterexample: at `profile_2d = [1, 0, 0]`, `y_axis = [0, 0, 0]`,
`y_diam = -2`, the reference point actually used is the raw cell at
`(1, 1)` (Python `round(3/2) - 1 = 1`, round-half-to-even), which has value
`2`, not the raw cell at `(⌊3/2⌋ − 1, ⌊3/2⌋ − 1) = (0, 0)` claimed, which
has value `1`. -/
theorem C3_ref_counterexample :
    refPoint [1, 0, 0] [0, 0, 0] (-2) ≠
      some (((rawGrid [1, 0, 0] [0, 0, 0] (-2)).getD (3 / 2 - 1) []).getD
        (3 / 2 - 1) 0) := by
  have hcell0 : rawCell (-2) 0 0 = 2 := by
    have hb : bracket (-2) 0 0 = 1 := by norm_num [bracket, npsign]
    rw [rawCell, hb, if_neg (by norm_num), Real.sqrt_one]
    norm_num [npsign]
  have hcell1 : rawCell (-2) 1 0 = 1 := by
    have hb : bracket (-2) 1 0 = 0 := by norm_num [bracket, npsign]
    rw [rawCell, hb, if_pos le_rfl]
    norm_num
  have href : refPoint [1, 0, 0] [0, 0, 0] (-2) =
      some (((rawGrid [1, 0, 0] [0, 0, 0] (-2)).getD 1 []).getD 1 0) :=
    refPoint_nonpos (k := 2) (by norm_num) (by decide) (by norm_num)
      (by norm_num) (by norm_num)
  have hL : ((rawGrid [1, 0, 0] [0, 0, 0] (-2)).getD 1 []).getD 1 0 =
      rawCell (-2) 0 0 := by
    rw [rawGrid_getD (by norm_num) (by norm_num)]
    norm_num
  have hidx : (3 / 2 - 1 : ℕ) = 0 := rfl
  have hR : ((rawGrid [1, 0, 0] [0, 0, 0] (-2)).getD 0 []).getD 0 0 =
      rawCell (-2) 1 0 := by
    rw [rawGrid_getD (by norm_num) (by norm_num)]
    norm_num
  rw [hidx, href, hL, hcell0, hR, hcell1]
  norm_num

/-- C3 (amended): when `y_diam > 0` the reference point is the attained
global minimum of the raw grid; when `y_diam ≤ 0` it is the raw cell at
`(k − 1, k − 1)` where `k = round(len_x/2)` with Python round-half-to-even
(not `⌊len_x/2⌋`), the x-axis length being used for both dimensions,
whenever that index is in range on both axes. -/
theorem C3_refPoint_amended (prof ys : List ℝ) (d : ℝ) :
    (0 < d → prof ≠ [] → ys ≠ [] →
      ∃ m, refPoint prof ys d = some m ∧
        m ∈ (rawGrid prof ys d).flatten ∧
        ∀ v ∈ (rawGrid prof ys d).flatten, m ≤ v) ∧
    (d ≤ 0 → ∀ k, k = pyHalfRound prof.length → 1 ≤ k →
      k - 1 < prof.length → k - 1 < ys.length →
      refPoint prof ys d =
        some (((rawGrid prof ys d).getD (k - 1) []).getD (k - 1) 0)) := by
  constructor
  · intro hd hp hy
    exact refPoint_pos hd hp hy
  · intro hd k hk h1 hx hy
    exact refPoint_nonpos hd hk h1 hx hy

/-- C3, witness: the convex branch at `y_diam = 1` and the concave branch at
`y_diam = -1`, both on `profile_2d = y_axis = [0, 0]` (there
`round(2/2) - 1 = 0`). -/
theorem C3_refPoint_amended_witness :
    (∃ m, refPoint [0, 0] [0, 0] 1 = some m ∧
        m ∈ (rawGrid [0, 0] [0, 0] 1).flatten ∧
        ∀ v ∈ (rawGrid [0, 0] [0, 0] 1).flatten, m ≤ v) ∧
    refPoint [0, 0] [0, 0] (-1) =
      some (((rawGrid [0, 0] [0, 0] (-1)).getD 0 []).getD 0 0) :=
  ⟨(C3_refPoint_amended [0, 0] [0, 0] 1).1 (by norm_num) (by simp) (by simp),
   (C3_refPoint_amended [0, 0] [0, 0] (-1)).2 (by norm_num) 1 (by decide)
     (by norm_num) (by norm_num) (by norm_num)⟩

/-- C4: a successful `profrevolve` run returns a primary grid of dimensions
`(len(profile_2d), len(y_axis))` whose cells equal `raw − reference`
(the negation of the normalized grid `−(raw − reference)`), and a secondary
slice of length `len(profile_2d)` taken from the non-negated normalized grid
at column `⌊len(y_axis)/2⌋`, preserving the sign asymmetry. -/
theorem C4_profrevolve_outputs (prof ys : List ℝ) (d : ℝ)
    (g : List (List ℝ)) (s : List ℝ)
    (h : profrevolve prof ys d = some (g, s)) :
    ∃ m, refPoint prof ys d = some m ∧
      g.length = prof.length ∧
      (∀ row ∈ g, row.length = ys.length) ∧
      s.length = prof.length ∧
      (∀ ix iy, ix < prof.length → iy < ys.length →
        (g.getD ix []).getD iy 0 =
          ((rawGrid prof ys d).getD ix []).getD iy 0 - m) ∧
      (∀ ix, ix < prof.length →
        s.getD ix 0 =
          -(((rawGrid prof ys d).getD ix []).getD (ys.length / 2) 0 - m)) := by
  obtain ⟨m, hm, hk, hg, hs⟩ := profrevolve_some_inv h
  have hlenr : (rawGrid prof ys d).length = prof.length :=
    rawGrid_length prof ys d
  refine ⟨m, hm, ?_, ?_, ?_, ?_, ?_⟩
  · rw [hg, List.length_map, hlenr]
  · intro row hrow
    rw [hg] at hrow
    obtain ⟨row0, hrow0, rfl⟩ := List.mem_map.mp hrow
    rw [List.length_map]
    exact rawGrid_row_length hrow0
  · rw [hs, List.length_map, hlenr]
  · intro ix iy hx hy
    have hxg : ix < (rawGrid prof ys d).length := by rw [hlenr]; exact hx
    have hmem : (rawGrid prof ys d)[ix] ∈ rawGrid prof ys d :=
      List.getElem_mem hxg
    have hrow : (List.map (fun row => List.map (fun v => v - m) row)
        (rawGrid prof ys d)).getD ix [] =
        List.map (fun v => v - m) ((rawGrid prof ys d).getD ix []) := by
      rw [List.getD_eq_getElem _ _ (by simpa using hxg), List.getElem_map,
        List.getD_eq_getElem _ _ hxg]
    have hyg : iy < ((rawGrid prof ys d).getD ix []).length := by
      rw [List.getD_eq_getElem _ _ hxg, rawGrid_row_length hmem]
      exact hy
    rw [hg, hrow, List.getD_eq_getElem _ _ (by simpa using hyg),
      List.getElem_map, List.getD_eq_getElem _ _ hyg]
  · intro ix hx
    have hxg : ix < (rawGrid prof ys d).length := by rw [hlenr]; exact hx
    rw [hs, List.getD_eq_getElem _ _ (by simpa using hxg), List.getElem_map,
      List.getD_eq_getElem _ _ hxg]

/-- C4, witness: the run at `profile_2d = [0]`, `y_axis = [5]`,
`y_diam = 2`, whose raw grid is `[[1]]` (clamped cell) and whose outputs are
`([[0]], [0])`. -/
theorem C4_profrevolve_outputs_witness :
    profrevolve [(0 : ℝ)] [(5 : ℝ)] 2 = some ([[0]], [0]) ∧
    (∃ m, refPoint [(0 : ℝ)] [(5 : ℝ)] 2 = some m ∧
      ([[(0 : ℝ)]] : List (List ℝ)).length = ([(0 : ℝ)] : List ℝ).length ∧
      (∀ row ∈ ([[(0 : ℝ)]] : List (List ℝ)),
        row.length = ([(5 : ℝ)] : List ℝ).length) ∧
      ([(0 : ℝ)] : List ℝ).length = ([(0 : ℝ)] : List ℝ).length ∧
      (∀ ix iy, ix < ([(0 : ℝ)] : List ℝ).length →
        iy < ([(5 : ℝ)] : List ℝ).length →
        ((([[(0 : ℝ)]] : List (List ℝ)).getD ix []).getD iy 0 =
          ((rawGrid [(0 : ℝ)] [(5 : ℝ)] 2).getD ix []).getD iy 0 - m)) ∧
      (∀ ix, ix < ([(0 : ℝ)] : List ℝ).length →
        (([(0 : ℝ)] : List ℝ).getD ix 0 =
          -(((rawGrid [(0 : ℝ)] [(5 : ℝ)] 2).getD ix []).getD
              (([(5 : ℝ)] : List ℝ).length / 2) 0 - m)))) := by
  have hcell : rawCell 2 0 5 = 1 := by
    have hb : bracket 2 0 5 = -24 := by norm_num [bracket, npsign]
    rw [rawCell, hb, if_pos (by norm_num)]
    norm_num
  have hraw : rawGrid [(0 : ℝ)] [(5 : ℝ)] 2 = [[1]] := by
    simp [rawGrid, hcell]
  have hm : refPoint [(0 : ℝ)] [(5 : ℝ)] 2 = some 1 := by
    unfold refPoint refOf
    rw [if_pos (by norm_num), hraw]
    rfl
  have hrun := profrevolve_eq_of_ref hm (by norm_num)
  rw [hraw] at hrun
  norm_num at hrun
  exact ⟨hrun, C4_profrevolve_outputs [0] [5] 2 [[0]] [0] hrun⟩

/-- C5, counterexample: at `profile_2d = [0, 0, 0, 0]`, `y_axis = [0]`,
`y_diam = -1` (all finite reals), the concave-branch reference lookup
indexes column `round(4/2) - 1 = 1` of a grid with only one column, raising
`IndexError` (modelled as `none`), so `profrevolve` does not return
normally for every finite input. -/
theorem C5_counterexample :
    profrevolve [0, 0, 0, 0] [(0 : ℝ)] (-1) = none := by
  apply profrevolve_eq_none_of_ref
  unfold refPoint refOf
  rw [if_neg (by norm_num)]
  rw [show ([0, 0, 0, 0] : List ℝ).length = 4 from rfl,
    show ([(0 : ℝ)] : List ℝ).length = 1 from rfl,
    show ((pyHalfRound 4 : ℤ) - 1) = ((1 : ℕ) : ℤ) by decide,
    npIdx_of_lt (by norm_num : (1 : ℕ) < 4),
    npIdx_of_ge (by norm_num : ((1 : ℕ) : ℤ) ≤ ((1 : ℕ) : ℤ))]
  simp

/-- C5 (amended): `profrevolve` raises no exception whenever `y_diam > 0`
and both inputs are non-empty (for `y_diam ≤ 0` the reference lookup can go
out of range), and no NaN can appear: every per-cell computation succeeds,
`math.sqrt` being applied only when the bracket is positive. -/
theorem C5_no_failure_amended (prof ys : List ℝ) (d : ℝ) :
    (0 < d → prof ≠ [] → ys ≠ [] →
      ∃ out, profrevolve prof ys d = some out) ∧
    (∀ p y, rawCell? d p y = some (rawCell d p y)) := by
  constructor
  · intro hd hp hy
    obtain ⟨m, hm, _, _⟩ := refPoint_pos hd hp hy
    have hk : ys.length / 2 < ys.length :=
      Nat.div_lt_self (List.length_pos.mpr hy) one_lt_two
    exact ⟨_, profrevolve_eq_of_ref hm hk⟩
  · intro p y
    exact rawCell?_eq_some d p y

/-- C5, witness: a successful run at `profile_2d = [0]`, `y_axis = [0]`,
`y_diam = 1`. -/
theorem C5_no_failure_amended_witness :
    (0 : ℝ) < 1 ∧ ∃ out, profrevolve [(0 : ℝ)] [(0 : ℝ)] 1 = some out :=
  ⟨by norm_num,
   (C5_no_failure_amended [0] [0] 1).1 (by norm_num) (by simp) (by simp)⟩

/-- C6, counterexample: with an empty `profile_2d` (and `y_axis = [0]`,
`y_diam = 1`), `profrevolve` does not return an empty grid: `prof_3d.min()`
on the zero-size raw grid raises `ValueError` (modelled as `none`). -/
theorem C6_counterexample : profrevolve [] [(0 : ℝ)] 1 = none :=
  profrevolve_eq_none_of_ref (refPoint_nil_left [0] 1)

/-- C6 (amended): `profball` with an empty `x_axis` yields an empty profile
with no error, but `profrevolve` with an empty `profile_2d` or an empty
`y_axis` always raises (`ValueError` from `min` on a zero-size array when
`y_diam > 0`, `IndexError` otherwise), modelled as `none`. -/
theorem C6_empty_amended (r d : ℝ) (prof ys : List ℝ) :
    profball [] r = [] ∧
    ((prof = [] ∨ ys = []) → profrevolve prof ys d = none) := by
  constructor
  · rfl
  · rintro (rfl | rfl)
    · exact profrevolve_eq_none_of_ref (refPoint_nil_left ys d)
    · exact profrevolve_eq_none_of_ref (refPoint_nil_right prof d)

/-- C6, witness: the empty-profile case at `r = 1`, `y_diam = 2`,
`y_axis = [0]`. -/
theorem C6_empty_amended_witness :
    profball [] (1 : ℝ) = [] ∧ profrevolve [] [(0 : ℝ)] 2 = none :=
  ⟨(C6_empty_amended 1 2 [] [0]).1,
   (C6_empty_amended 1 2 [] [0]).2 (Or.inl rfl)⟩

/-- C7: for an `x_axis` whose entries all satisfy `x² ≤ r_ball²`, `profball`
is length-preserving and index-aligned, its i-th value is
`sign(r_ball)·(|r_ball| − sqrt(r_ball² − x_axis[i]²))`, and its value at any
entry `x = 0` is exactly `0`. -/
theorem C7_profball_values (xs : List ℝ) (r : ℝ)
    (_hall : ∀ x ∈ xs, x ^ 2 ≤ r ^ 2) :
    (profball xs r).length = xs.length ∧
    ∀ i, i < xs.length →
      ((profball xs r).getD i 0 =
          npsign r * (|r| - Real.sqrt (r ^ 2 - (xs.getD i 0) ^ 2)) ∧
        (xs.getD i 0 = 0 → (profball xs r).getD i 0 = 0)) := by
  refine ⟨by simp [profball], ?_⟩
  intro i hi
  constructor
  · rw [profball_getD hi]
    ring
  · intro h0
    rw [profball_getD hi, h0]
    norm_num [Real.sqrt_sq_eq_abs]

/-- C7, witness: `x_axis = [0]`, `r_ball = 1`. -/
theorem C7_profball_values_witness :
    (∀ x ∈ [(0 : ℝ)], x ^ 2 ≤ (1 : ℝ) ^ 2) ∧
    ((profball [(0 : ℝ)] 1).length = ([(0 : ℝ)] : List ℝ).length ∧
      ∀ i, i < ([(0 : ℝ)] : List ℝ).length →
        ((profball [(0 : ℝ)] 1).getD i 0 =
            npsign 1 *
              (|(1 : ℝ)| -
                Real.sqrt ((1 : ℝ) ^ 2 - (([(0 : ℝ)] : List ℝ).getD i 0) ^ 2)) ∧
          (([(0 : ℝ)] : List ℝ).getD i 0 = 0 →
            (profball [(0 : ℝ)] 1).getD i 0 = 0))) :=
  ⟨by norm_num, C7_profball_values [0] 1 (by norm_num)⟩

/-- C8: for a symmetric `x_axis` (entry `i` is the negation of entry
`len − 1 − i`) within `±|r_ball|`, the `profball` profile is mirror-equal:
`profile[i] = profile[len − 1 − i]`. -/
theorem C8_profball_symmetric (xs : List ℝ) (r : ℝ)
    (_hall : ∀ x ∈ xs, x ^ 2 ≤ r ^ 2)
    (hsym : ∀ i, i < xs.length →
      xs.getD i 0 = -(xs.getD (xs.length - 1 - i) 0)) :
    ∀ i, i < xs.length →
      (profball xs r).getD i 0 =
        (profball xs r).getD (xs.length - 1 - i) 0 := by
  intro i hi
  have hj : xs.length - 1 - i < xs.length := by omega
  rw [profball_getD hi, profball_getD hj, hsym i hi, neg_sq]

/-- C8, witness: `x_axis = [-1, 0, 1]`, `r_ball = 2`. -/
theorem C8_profball_symmetric_witness :
    (∀ i, i < ([-1, 0, 1] : List ℝ).length →
      ([-1, 0, 1] : List ℝ).getD i 0 =
        -(([-1, 0, 1] : List ℝ).getD (([-1, 0, 1] : List ℝ).length - 1 - i) 0)) ∧
    ∀ i, i < ([-1, 0, 1] : List ℝ).length →
      (profball [-1, 0, 1] 2).getD i 0 =
        (profball [-1, 0, 1] 2).getD
          (([-1, 0, 1] : List ℝ).length - 1 - i) 0 := by
  have hsym : ∀ i, i < ([-1, 0, 1] : List ℝ).length →
      ([-1, 0, 1] : List ℝ).getD i 0 =
        -(([-1, 0, 1] : List ℝ).getD
            (([-1, 0, 1] : List ℝ).length - 1 - i) 0) := by
    intro i hi
    have hi3 : i < 3 := by simpa using hi
    interval_cases i <;> norm_num
  exact ⟨hsym,
    C8_profball_symmetric [-1, 0, 1] 2 (by norm_num) hsym⟩

/-- C9: for an `x_axis` bounded by `±|r_ball|` (every entry `x` with
`x² ≤ r_ball²`), every value of the `profball` profile satisfies
`|value| ≤ |r_ball|`. -/
theorem C9_profball_bounded (xs : List ℝ) (r : ℝ)
    (hall : ∀ x ∈ xs, x ^ 2 ≤ r ^ 2) :
    ∀ v ∈ profball xs r, |v| ≤ |r| := by
  intro v hv
  simp only [profball, List.mem_map] at hv
  obtain ⟨x, hx, rfl⟩ := hv
  have hx2 : x ^ 2 ≤ r ^ 2 := hall x hx
  have h0 : 0 ≤ r ^ 2 - x ^ 2 := by linarith
  have hs0 : 0 ≤ Real.sqrt (r ^ 2 - x ^ 2) := Real.sqrt_nonneg _
  have hsle : Real.sqrt (r ^ 2 - x ^ 2) ≤ |r| := by
    rw [show |r| = Real.sqrt (r ^ 2) from (Real.sqrt_sq_eq_abs r).symm]
    exact Real.sqrt_le_sqrt (by nlinarith [sq_nonneg x])
  have habs : |(|r| - Real.sqrt (r ^ 2 - x ^ 2))| ≤ |r| := by
    rw [abs_of_nonneg (by linarith)]
    linarith
  have hsign : |npsign r| ≤ 1 := by
    unfold npsign
    split_ifs <;> norm_num
  calc |(|r| - Real.sqrt (r ^ 2 - x ^ 2)) * npsign r|
      = |(|r| - Real.sqrt (r ^ 2 - x ^ 2))| * |npsign r| := abs_mul _ _
    _ ≤ |r| * 1 := mul_le_mul habs hsign (abs_nonneg _) (abs_nonneg _)
    _ = |r| := mul_one _

/-- C9, witness: `x_axis = [0]`, `r_ball = 1`. -/
theorem C9_profball_bounded_witness :
    (∀ x ∈ [(0 : ℝ)], x ^ 2 ≤ (1 : ℝ) ^ 2) ∧
    ∀ v ∈ profball [(0 : ℝ)] 1, |v| ≤ |(1 : ℝ)| :=
  ⟨by norm_num, C9_profball_bounded [0] 1 (by norm_num)⟩

/-- C10: for non-empty inputs and `y_diam > 0`, `profrevolve` succeeds,
every cell of the primary grid (raw grid minus its global minimum) is
nonnegative, and some cell is exactly `0`. -/
theorem C10_primary_grid_nonneg (prof ys : List ℝ) (d : ℝ)
    (hd : 0 < d) (hp : prof ≠ []) (hy : ys ≠ []) :
    ∃ g s, profrevolve prof ys d = some (g, s) ∧
      (∀ row ∈ g, ∀ v ∈ row, 0 ≤ v) ∧
      (∃ row ∈ g, ∃ v ∈ row, v = 0) := by
  obtain ⟨m, hm, hmem, hle⟩ := refPoint_pos hd hp hy
  have hk : ys.length / 2 < ys.length :=
    Nat.div_lt_self (List.length_pos.mpr hy) one_lt_two
  refine ⟨_, _, profrevolve_eq_of_ref hm hk, ?_, ?_⟩
  · intro row hrow v hv
    obtain ⟨row0, hrow0, rfl⟩ := List.mem_map.mp hrow
    obtain ⟨v0, hv0, rfl⟩ := List.mem_map.mp hv
    have hvj : v0 ∈ (rawGrid prof ys d).flatten :=
      List.mem_flatten.mpr ⟨row0, hrow0, hv0⟩
    have := hle v0 hvj
    linarith
  · obtain ⟨row0, hrow0, hmrow⟩ := List.mem_flatten.mp hmem
    exact ⟨row0.map (fun v => v - m), List.mem_map.mpr ⟨row0, hrow0, rfl⟩,
      m - m, List.mem_map.mpr ⟨m, hmrow, rfl⟩, sub_self m⟩

/-- C10, witness: `profile_2d = [0]`, `y_axis = [5]`, `y_diam = 2`. -/
theorem C10_primary_grid_nonneg_witness :
    (0 : ℝ) < 2 ∧
    ∃ g s, profrevolve [(0 : ℝ)] [(5 : ℝ)] 2 = some (g, s) ∧
      (∀ row ∈ g, ∀ v ∈ row, 0 ≤ v) ∧
      (∃ row ∈ g, ∃ v ∈ row, v = 0) :=
  ⟨by norm_num,
   C10_primary_grid_nonneg [0] [5] 2 (by norm_num) (by simp) (by simp)⟩

end Tribology
